import Mathlib

/-!
Verification of the LLM dependency bot's decision core (`src/agent.py`):
the fallback decision table, the CI status aggregator, the dependency
title classifier, the security-signal detector, the tool invoker, the
bounded reasoning loop, and the verdict extraction pipeline.

The Python code is shallowly embedded: pure helper methods become Lean
functions over `String` / `List Char`; network calls become explicit
`Except` parameters describing the call's outcome; Python exceptions are
`Except.error` values.  Strings are sequences of unicode code points on
both sides, so Python slicing/indexing maps to `List Char` operations.
-/

namespace DependencyBot

/-- Embeds the `RiskLevel` enum of `agent.py`. -/
inductive RiskLevel where
  | low
  | medium
  | high
  | critical
deriving DecidableEq, Repr

/-- Embeds the `MergeDecision` enum of `agent.py`. -/
inductive MergeDecision where
  | auto_merge
  | require_approval
  | do_not_merge
deriving DecidableEq, Repr

/-- Embeds the `PRContext` dataclass of `agent.py` (the perception layer's
output).  Labels are the label name strings, as built in `gather_pr_context`. -/
structure PRContext where
  number : Nat
  title : String
  body : String
  labels : List String
  author : String
  is_draft : Bool
  mergeable : Bool
  mergeable_state : String
  ci_status : String
  ci_conclusion : Option String
  update_type : String
  old_version : String
  new_version : String
  dependency_name : String
  is_security_update : Bool
  target_branch : String
  files_changed : List String
deriving DecidableEq, Repr

/-- Python slice `s[:n]` on a string (code points). -/
def strTake (s : String) (n : Nat) : String :=
  String.mk (s.toList.take n)

/-- The reasoning string `_fallback_decision` builds:
`"Fallback decision used due to parsing error.\n\n" + llm_response[:500]`. -/
def fallbackReasoning (llm_response : String) : String :=
  "Fallback decision used due to parsing error.\n\n" ++ strTake llm_response 500

/-- Embeds `_fallback_decision` of `agent.py`. -/
def fallback_decision (context : PRContext) (llm_response : String) :
    MergeDecision × RiskLevel × String :=
  let reasoning := fallbackReasoning llm_response
  if context.ci_status = "failure" ∨ context.mergeable = false then
    (MergeDecision.do_not_merge, RiskLevel.critical, reasoning)
  else if context.update_type = "major" then
    (MergeDecision.require_approval, RiskLevel.high, reasoning)
  else if context.is_security_update = true ∨ context.update_type = "minor" ∨
      context.update_type = "patch" then
    (MergeDecision.auto_merge, RiskLevel.low, reasoning)
  else
    (MergeDecision.require_approval, RiskLevel.medium, reasoning)

/-- One element of the `check_runs` list consumed by `_get_ci_status`.
`conclusion` is `none` for JSON `null`. -/
structure CheckRun where
  status : String
  conclusion : Option String
deriving DecidableEq, Repr

/-- The list comprehension of `_get_ci_status`:
`[run["conclusion"] for run in check_runs if run.get("conclusion")]` —
Python truthiness drops both `null` and the empty string. -/
def ciConclusions (check_runs : List CheckRun) : List String :=
  check_runs.filterMap fun run =>
    match run.conclusion with
    | none => none
    | some c => if c = "" then none else some c

/-- Embeds `_get_ci_status` of `agent.py`.  The GitHub check-runs request is
abstracted as its outcome `fetch`; an `Except.error` is the `except` branch. -/
def get_ci_status (fetch : Except String (List CheckRun)) : String × Option String :=
  match fetch with
  | .error _ => ("unknown", none)
  | .ok check_runs =>
    if check_runs.isEmpty then ("pending", none)
    else
      let statuses := check_runs.map (·.status)
      let conclusions := ciConclusions check_runs
      if statuses.any (fun s => s ≠ "completed") then ("pending", none)
      else if conclusions.all (fun c => c = "success") then ("success", some "success")
      else if conclusions.any (fun c => c = "failure" ∨ c = "cancelled" ∨ c = "timed_out") then
        ("failure", some "failure")
      else ("pending", none)

/-! ## The dependency title classifier (`_parse_dependency_info`)

The three regular expressions of `_parse_dependency_info` are embedded as
explicit leftmost-match scanners over `List Char`, with Python `re`
semantics: a lazy group `(.+?)` takes the shortest non-empty run of
non-newline characters, greedy classes backtrack from the longest run, and
`re.IGNORECASE` lowercases only the comparison, not the captured text. -/

/-- `pat` (pre-lowercased) matches at the head of `l`, case-insensitively
(ASCII lowering, as `str.lower` on these inputs). -/
def ciMatchesAt : List Char → List Char → Bool
  | [], _ => true
  | _ :: _, [] => false
  | p :: ps, c :: cs => p = Char.toLower c && ciMatchesAt ps cs

/-- Lazy group scan: the shortest non-empty run of non-newline characters
after which `pat2` matches case-insensitively; returns the captured run. -/
def lazyGroupAux (pat2 : List Char) (acc : List Char) : List Char → Option (List Char)
  | [] => none
  | c :: rest =>
    if c = '\n' then none
    else if ciMatchesAt pat2 rest then some ((c :: acc).reverse)
    else lazyGroupAux pat2 (c :: acc) rest

/-- `re.search` for `pat1(.+?)pat2` with `re.IGNORECASE`: leftmost start
wins, the group is lazy.  Embeds the `Bump (.+?) from` / `Update (.+?) to`
searches of `_parse_dependency_info`. -/
def searchLazyGroup (pat1 pat2 : List Char) : List Char → Option (List Char)
  | [] => none
  | c :: rest =>
    if ciMatchesAt pat1 (c :: rest) then
      match lazyGroupAux pat2 [] ((c :: rest).drop pat1.length) with
      | some g => some g
      | none => searchLazyGroup pat1 pat2 rest
    else searchLazyGroup pat1 pat2 rest

/-- Character class `[\d.]` (ASCII digits, as in these titles). -/
def isVerChar (c : Char) : Bool := c.isDigit || c = '.'

/-- Character class `[\w.]` (ASCII word characters, as in these titles). -/
def isWordChar (c : Char) : Bool := c.isAlphanum || c = '_' || c = '.'

/-- Length of the maximal prefix run satisfying `p`. -/
def takeRunLen (p : Char → Bool) : List Char → Nat
  | [] => 0
  | c :: rest => if p c then takeRunLen p rest + 1 else 0

/-- Candidates for the optional greedy tail `(?:-[\w.]+)?` at `l`, in the
regex engine's preference order (longest word run first, then absent);
each candidate is (captured suffix, remaining input). -/
def dashCandidates (l : List Char) : List (List Char × List Char) :=
  match l with
  | '-' :: rest =>
    let b := takeRunLen isWordChar rest
    ((List.range b).map fun k =>
      let len := b - k
      ('-' :: rest.take len, rest.drop len)) ++ [([], l)]
  | _ => [([], l)]

/-- Candidates for a version group `([\d.]+(?:-[\w.]+)?)` at `l`, in the
regex engine's preference order (greedy digit run, backtracking from the
longest). -/
def verCandidates (l : List Char) : List (List Char × List Char) :=
  let a := takeRunLen isVerChar l
  (List.range a).flatMap fun k =>
    let len := a - k
    (dashCandidates (l.drop len)).map fun dc => (l.take len ++ dc.1, dc.2)

/-- Attempt the pattern `from ([\d.]+(?:-[\w.]+)?) to ([\d.]+(?:-[\w.]+)?)`
at the head of `l`, returning the two captures. -/
def matchFromToAt (l : List Char) : Option (List Char × List Char) :=
  if ("from ".toList).isPrefixOf l then
    (verCandidates (l.drop 5)).findSome? fun g1 =>
      if (" to ".toList).isPrefixOf g1.2 then
        match verCandidates (g1.2.drop 4) with
        | [] => none
        | g2 :: _ => some (g1.1, g2.1)
      else none
  else none

/-- `re.search` for the version pattern of `_parse_dependency_info`:
leftmost start wins. -/
def searchFromTo : List Char → Option (List Char × List Char)
  | [] => none
  | c :: rest =>
    match matchFromToAt (c :: rest) with
    | some g => some g
    | none => searchFromTo rest

/-- Python `str.split(".")` on a character list: `""` gives `[""]`,
separators at the ends give empty pieces. -/
def splitOnDot : List Char → List (List Char)
  | [] => [[]]
  | c :: rest =>
    if c = '.' then [] :: splitOnDot rest
    else
      match splitOnDot rest with
      | [] => [[c]]
      | p :: ps => (c :: p) :: ps

/-- Python `str.strip()`: drop unicode whitespace from both ends. -/
def stripStr (l : List Char) : List Char :=
  ((l.dropWhile Char.isWhitespace).reverse.dropWhile Char.isWhitespace).reverse

/-- The semantic-version comparison block of `_parse_dependency_info`
(operating on the captured version strings as character lists). -/
def classifyUpdate (old_version new_version : List Char) : String :=
  let old_parts := splitOnDot old_version
  let new_parts := splitOnDot new_version
  if 1 ≤ old_parts.length ∧ 1 ≤ new_parts.length then
    if old_parts.headD [] ≠ new_parts.headD [] then "major"
    else if 2 ≤ old_parts.length ∧ 2 ≤ new_parts.length ∧
        old_parts.getD 1 [] ≠ new_parts.getD 1 [] then "minor"
    else "patch"
  else "unknown"

/-- The result quadruple of `_parse_dependency_info`. -/
structure DependencyInfo where
  update_type : String
  old_version : String
  new_version : String
  dependency_name : String
deriving DecidableEq, Repr

/-- Embeds `_parse_dependency_info` of `agent.py`.  `body` is accepted and
ignored, as in the source. -/
def parse_dependency_info (title : String) (body : String) : DependencyInfo :=
  let _ := body
  let t := title.toList
  let bump_match := searchLazyGroup "bump ".toList " from".toList t
  let dependency_name :=
    match bump_match with
    | some g => String.mk (stripStr g)
    | none =>
      match searchLazyGroup "update ".toList " to".toList t with
      | some g => String.mk (stripStr g)
      | none => "unknown"
  match searchFromTo t with
  | some (o, n) =>
    { update_type := classifyUpdate o n
      old_version := String.mk o
      new_version := String.mk n
      dependency_name := dependency_name }
  | none =>
    { update_type := "unknown"
      old_version := ""
      new_version := ""
      dependency_name := dependency_name }

/-- Contiguous-infix test on character lists. -/
def listContains (needle : List Char) : List Char → Bool
  | [] => needle.isEmpty
  | c :: rest => needle.isPrefixOf (c :: rest) || listContains needle rest

/-- Python `needle in hay` on strings: contiguous substring test. -/
def containsSub (hay needle : String) : Bool :=
  listContains needle.toList hay.toList

/-- Python `str.lower()` (ASCII lowering, as on these inputs). -/
def lowerStr (s : String) : String :=
  String.mk (s.toList.map Char.toLower)

/-- Embeds `_is_security_update` of `agent.py`; `labels` carries the label
name strings (`label["name"]` of each label dict). -/
def is_security_update (labels : List String) (body : String) : Bool :=
  let label_names := labels.map lowerStr
  let body_lower := lowerStr body
  label_names.any (fun label => containsSub label "security") ||
    containsSub body_lower "security" ||
    containsSub body_lower "cve" ||
    containsSub body_lower "vulnerability"

/-! ## JSON values and `json.loads` (strict mode, as used by `decide_with_llm`)

`decide_with_llm` feeds the regex-extracted span to `json.loads`.  The
parser below embeds the strict JSON grammar the Python `json` module
accepts (including its `NaN`/`Infinity`/`-Infinity` extensions); numbers
are kept as their raw text since no claim inspects numeric values.
Recursion is fueled; the entry point supplies fuel exceeding the input
length, which each recursive call strictly consumes. -/

inductive JsonValue where
  | null
  | bool (b : Bool)
  | num (raw : String)
  | str (s : String)
  | arr (items : List JsonValue)
  | obj (members : List (String × JsonValue))

/-- The `[ \t\n\r]*` whitespace skip of the Python `json` scanner. -/
def skipWs : List Char → List Char
  | c :: rest =>
    if c = ' ' ∨ c = '\t' ∨ c = '\n' ∨ c = '\r' then skipWs rest else c :: rest
  | [] => []

def hexDigitVal (c : Char) : Option Nat :=
  if '0' ≤ c ∧ c ≤ '9' then some (c.toNat - 48)
  else if 'a' ≤ c ∧ c ≤ 'f' then some (c.toNat - 87)
  else if 'A' ≤ c ∧ c ≤ 'F' then some (c.toNat - 55)
  else none

def parseHex4 : List Char → Option (Nat × List Char)
  | a :: b :: c :: d :: rest => do
    let x ← hexDigitVal a
    let y ← hexDigitVal b
    let z ← hexDigitVal c
    let w ← hexDigitVal d
    some (((x * 16 + y) * 16 + z) * 16 + w, rest)
  | _ => none

/-- JSON string body scanner (after the opening quote), strict mode:
control characters are rejected, the eight escapes and `\uXXXX` (with
surrogate-pair combination) are decoded.  A lone surrogate is not a Lean
scalar value; `Char.ofNat` then yields the null character. -/
def parseJString : Nat → List Char → List Char → Option (String × List Char)
  | 0, _, _ => none
  | _ + 1, _, [] => none
  | fuel + 1, acc, c :: rest =>
    if c = '"' then some (String.mk acc.reverse, rest)
    else if c = '\\' then
      match rest with
      | [] => none
      | e :: rest2 =>
        if e = '"' then parseJString fuel ('"' :: acc) rest2
        else if e = '\\' then parseJString fuel ('\\' :: acc) rest2
        else if e = '/' then parseJString fuel ('/' :: acc) rest2
        else if e = 'b' then parseJString fuel ('\x08' :: acc) rest2
        else if e = 'f' then parseJString fuel ('\x0c' :: acc) rest2
        else if e = 'n' then parseJString fuel ('\n' :: acc) rest2
        else if e = 'r' then parseJString fuel ('\r' :: acc) rest2
        else if e = 't' then parseJString fuel ('\t' :: acc) rest2
        else if e = 'u' then
          match parseHex4 rest2 with
          | none => none
          | some (n, rest3) =>
            if 0xD800 ≤ n ∧ n < 0xDC00 then
              match rest3 with
              | '\\' :: 'u' :: rest4 =>
                match parseHex4 rest4 with
                | none => none
                | some (m, rest5) =>
                  if 0xDC00 ≤ m ∧ m < 0xE000 then
                    parseJString fuel
                      (Char.ofNat (0x10000 + (n - 0xD800) * 0x400 + (m - 0xDC00)) :: acc) rest5
                  else parseJString fuel (Char.ofNat n :: acc) rest3
              | _ => parseJString fuel (Char.ofNat n :: acc) rest3
            else parseJString fuel (Char.ofNat n :: acc) rest3
        else none
    else if c.toNat < 0x20 then none
    else parseJString fuel (c :: acc) rest

/-- The optional fraction and exponent tails of the scanner's number
pattern `(-?(?:0|[1-9]\d*))(\.\d+)?([eE][-+]?\d+)?`. -/
def parseFracExp (intPart : List Char) (l : List Char) : Option (JsonValue × List Char) :=
  let fr :=
    match l with
    | '.' :: r =>
      let n := takeRunLen Char.isDigit r
      if n = 0 then (([] : List Char), l) else ('.' :: r.take n, r.drop n)
    | _ => ([], l)
  let l1 := fr.2
  let ex :=
    match l1 with
    | e :: r =>
      if e = 'e' ∨ e = 'E' then
        match r with
        | s :: r2 =>
          if s = '+' ∨ s = '-' then
            let n := takeRunLen Char.isDigit r2
            if n = 0 then (([] : List Char), l1) else (e :: s :: r2.take n, r2.drop n)
          else
            let n := takeRunLen Char.isDigit r
            if n = 0 then (([] : List Char), l1) else (e :: r.take n, r.drop n)
        | [] => ([], l1)
      else ([], l1)
    | [] => ([], l1)
  some (.num (String.mk (intPart ++ fr.1 ++ ex.1)), ex.2)

/-- The integer head of the scanner's number pattern. -/
def parseJNumber (l : List Char) : Option (JsonValue × List Char) :=
  match l with
  | '-' :: c :: rest =>
    if c = '0' then parseFracExp ['-', '0'] rest
    else if c.isDigit then
      let n := takeRunLen Char.isDigit (c :: rest)
      parseFracExp ('-' :: (c :: rest).take n) ((c :: rest).drop n)
    else none
  | c :: rest =>
    if c = '0' then parseFracExp ['0'] rest
    else if c.isDigit then
      let n := takeRunLen Char.isDigit (c :: rest)
      parseFracExp ((c :: rest).take n) ((c :: rest).drop n)
    else none
  | [] => none

mutual

/-- `scan_once` of the Python `json` scanner: a value starting at the head
of `l` (no leading whitespace). -/
def parseJValue : Nat → List Char → Option (JsonValue × List Char)
  | 0, _ => none
  | fuel + 1, l =>
    match l with
    | [] => none
    | c :: rest =>
      if c = '"' then (parseJString (rest.length + 1) [] rest).map fun p => (.str p.1, p.2)
      else if c = '\x7b' then
        match skipWs rest with
        | '\x7d' :: rest2 => some (.obj [], rest2)
        | l2 => (parseJMembers fuel l2).map fun p => (.obj p.1, p.2)
      else if c = '[' then
        match skipWs rest with
        | ']' :: rest2 => some (.arr [], rest2)
        | l2 => (parseJItems fuel l2).map fun p => (.arr p.1, p.2)
      else if ("true".toList).isPrefixOf l then some (.bool true, l.drop 4)
      else if ("false".toList).isPrefixOf l then some (.bool false, l.drop 5)
      else if ("null".toList).isPrefixOf l then some (.null, l.drop 4)
      else if ("NaN".toList).isPrefixOf l then some (.num "NaN", l.drop 3)
      else if ("Infinity".toList).isPrefixOf l then some (.num "Infinity", l.drop 8)
      else if ("-Infinity".toList).isPrefixOf l then some (.num "-Infinity", l.drop 9)
      else parseJNumber l

/-- Object members, positioned at a key (strict: a `"` must follow `,`). -/
def parseJMembers : Nat → List Char → Option (List (String × JsonValue) × List Char)
  | 0, _ => none
  | fuel + 1, l =>
    match l with
    | '"' :: rest =>
      match parseJString (rest.length + 1) [] rest with
      | none => none
      | some (key, r1) =>
        match skipWs r1 with
        | ':' :: r2 =>
          match parseJValue fuel (skipWs r2) with
          | none => none
          | some (v, r3) =>
            match skipWs r3 with
            | ',' :: r4 =>
              (parseJMembers fuel (skipWs r4)).map fun p => ((key, v) :: p.1, p.2)
            | '\x7d' :: r4 => some ([(key, v)], r4)
            | _ => none
        | _ => none
    | _ => none

/-- Array items, positioned at a value. -/
def parseJItems : Nat → List Char → Option (List JsonValue × List Char)
  | 0, _ => none
  | fuel + 1, l =>
    match parseJValue fuel l with
    | none => none
    | some (v, r1) =>
      match skipWs r1 with
      | ',' :: r2 => (parseJItems fuel (skipWs r2)).map fun p => (v :: p.1, p.2)
      | ']' :: r2 => some ([v], r2)
      | _ => none

end

/-- `json.loads` on a character list: one value, surrounded only by
whitespace. -/
def jsonLoads (l : List Char) : Option JsonValue :=
  match parseJValue (2 * l.length + 2) (skipWs l) with
  | some (v, rest) => if skipWs rest = [] then some v else none
  | none => none

/-! ## Verdict extraction (`decide_with_llm`, lines 633-654) -/

/-- The prefix of `l` ending at the last `\x7d` of `l`, if any: the greedy
`[\s\S]*\x7d` tail of the extraction regex. -/
def upToLastRBrace : List Char → Option (List Char)
  | [] => none
  | c :: rest =>
    match upToLastRBrace rest with
    | some t => some (c :: t)
    | none => if c = '\x7d' then some [c] else none

/-- `re.search(r"\x7b[\s\S]*\x7d", final_text)`: the match starts at the
first `\x7b` that has a `\x7d` somewhere after it, and the greedy interior
extends to the last `\x7d` of the whole text. -/
def jsonSpan : List Char → Option (List Char)
  | [] => none
  | c :: rest =>
    if c = '\x7b' then
      match upToLastRBrace rest with
      | some t => some (c :: t)
      | none => jsonSpan rest
    else jsonSpan rest

/-- Python dict construction makes later duplicate keys win, so item
lookup returns the value of the last binding. -/
def dictGet (kvs : List (String × JsonValue)) (key : String) : Except String JsonValue :=
  match kvs.reverse.find? (fun kv => kv.1 == key) with
  | some kv => .ok kv.2
  | none => .error ("KeyError: " ++ key)

/-- `MergeDecision[token]`: enum lookup by member name; anything else
raises (KeyError / TypeError). -/
def mergeDecisionOfToken (v : JsonValue) : Except String MergeDecision :=
  match v with
  | .str "AUTO_MERGE" => .ok MergeDecision.auto_merge
  | .str "REQUIRE_APPROVAL" => .ok MergeDecision.require_approval
  | .str "DO_NOT_MERGE" => .ok MergeDecision.do_not_merge
  | _ => .error "KeyError: decision token"

/-- `RiskLevel[token]`: enum lookup by member name. -/
def riskLevelOfToken (v : JsonValue) : Except String RiskLevel :=
  match v with
  | .str "LOW" => .ok RiskLevel.low
  | .str "MEDIUM" => .ok RiskLevel.medium
  | .str "HIGH" => .ok RiskLevel.high
  | .str "CRITICAL" => .ok RiskLevel.critical
  | _ => .error "KeyError: risk token"

/-- The body of the `try` block of `decide_with_llm` once a span has been
matched: `json.loads`, then the three item accesses and two enum lookups,
in source order.  Python's `reasoning` is whatever JSON value the key
holds, so the triple's third component is a `JsonValue`. -/
def parseVerdictFromSpan (span : List Char) :
    Except String (MergeDecision × RiskLevel × JsonValue) :=
  match jsonLoads span with
  | none => .error "JSONDecodeError"
  | some (.obj kvs) => do
    let dv ← dictGet kvs "decision"
    let d ← mergeDecisionOfToken dv
    let rv ← dictGet kvs "risk_level"
    let r ← riskLevelOfToken rv
    let reasoning ← dictGet kvs "reasoning"
    .ok (d, r, reasoning)
  | some _ => .error "TypeError: not an object"

/-- The fallback triple as produced through `decide_with_llm` (the
fallback's reasoning is a Python `str`). -/
def wrapFallback (context : PRContext) (final_text : String) :
    MergeDecision × RiskLevel × JsonValue :=
  let f := fallback_decision context final_text
  (f.1, f.2.1, JsonValue.str f.2.2)

/-- The verdict-extraction stage of `decide_with_llm`: regex search, then
the `try` block; no span and every exception route to
`_fallback_decision`. -/
def decideFromText (context : PRContext) (final_text : String) :
    MergeDecision × RiskLevel × JsonValue :=
  match jsonSpan final_text.toList with
  | some span =>
    match parseVerdictFromSpan span with
    | .ok t => t
    | .error _ => wrapFallback context final_text
  | none => wrapFallback context final_text

/-- Modelled from the spec (section 4.5, for comparison with `jsonSpan`):
"the driver searches the final text for the first balanced curly-brace
JSON object" — the first `\x7b` opens the object and it closes when the
brace depth returns to zero. -/
def balancedTail (depth : Nat) (acc : List Char) : List Char → Option (List Char)
  | [] => none
  | c :: rest =>
    if c = '\x7b' then balancedTail (depth + 1) (c :: acc) rest
    else if c = '\x7d' then
      if depth = 1 then some ((c :: acc).reverse)
      else balancedTail (depth - 1) (c :: acc) rest
    else balancedTail depth (c :: acc) rest

/-- Modelled from the spec (section 4.5): the first balanced curly-brace
object of the text. -/
def specFirstBalancedObject : List Char → Option (List Char)
  | [] => none
  | c :: rest =>
    if c = '\x7b' then balancedTail 1 [c] rest
    else specFirstBalancedObject rest

/-! ## The reasoning loop (`decide_with_llm`, lines 574-631) -/

/-- A content block of a reasoning-service response. -/
inductive ContentBlock where
  | text (s : String)
  | tool_use (id name : String) (input : List (String × String))
deriving DecidableEq, Repr

/-- A reasoning-service response: its stop reason and content blocks. -/
structure LLMResponse where
  stop_reason : String
  content : List ContentBlock
deriving DecidableEq, Repr

/-- `final_text`: the concatenation of the `.text` attributes of the
response's content blocks (`tool_use` blocks have none). -/
def finalText (r : LLMResponse) : String :=
  r.content.foldl (fun acc b => match b with | .text s => acc ++ s | _ => acc) ""

/-- The `for iteration in range(max_iterations)` loop of `decide_with_llm`:
one reasoning-service request per round, continuing only when
`stop_reason == "tool_use"` and rounds remain.  The service is modelled as
a function `respond` from the (0-based) round index to its response, which
ranges over every possible response sequence.  `i` is the current round
index, `fuel` the rounds remaining (entered with `i = 0`, `fuel = 5`; the
`fuel = 0` equation is a totalization artifact, unreachable from the entry
point).  Returns (number of requests issued, response in hand after the
loop). -/
def agentLoop (respond : Nat → LLMResponse) : Nat → Nat → Nat × LLMResponse
  | i, 0 => (i + 1, respond i)
  | i, fuel + 1 =>
    let response := respond i
    if response.stop_reason = "tool_use" ∧ fuel ≠ 0 then agentLoop respond (i + 1) fuel
    else (i + 1, response)

/-- Number of reasoning-service requests `decide_with_llm` issues. -/
def llmCallCount (respond : Nat → LLMResponse) : Nat :=
  (agentLoop respond 0 5).1

/-- Embeds `decide_with_llm`: the bounded loop with `max_iterations = 5`,
then verdict extraction on the last response's text. -/
def decide_with_llm (context : PRContext) (respond : Nat → LLMResponse) :
    MergeDecision × RiskLevel × JsonValue :=
  decideFromText context (finalText (agentLoop respond 0 5).2)

/-! ## Tool execution (`_execute_tool` and the three tools) -/

/-- The `tool_input` dict: the fields the three declared schemas may
carry; an absent field makes the corresponding `tool_input[...]` access
raise `KeyError`. -/
structure ToolInput where
  dependency : Option String
  version : Option String
  pr_number : Option Int
deriving DecidableEq, Repr

/-- Embeds `_fetch_release_notes`: a pure placeholder string (no network
call). -/
def fetch_release_notes (dependency version : String) : String :=
  "Release notes for " ++ dependency ++ " " ++ version ++
    " would be fetched from package registry (npm, PyPI, etc.) in production implementation."

/-- Embeds `_check_cve_database`: a pure placeholder string (no network
call). -/
def check_cve_database (dependency version : String) : String :=
  "CVE check for " ++ dependency ++ " " ++ version ++
    " would query vulnerability databases (GitHub Security, Snyk, etc.) in production implementation."

/-- Embeds `_analyze_diff`: the diff request is abstracted as its outcome
`fetchDiff`; the `except` branch turns any failure into descriptive text,
and long diffs are truncated to 2000 characters with a marker. -/
def analyze_diff (fetchDiff : Except String String) : String :=
  match fetchDiff with
  | .ok diff =>
    if 2000 < diff.length then strTake diff 2000 ++ "\n... (truncated for brevity)"
    else diff
  | .error e => "Could not fetch diff: " ++ e

def dictGetStr (v : Option String) (key : String) : Except String String :=
  match v with
  | some s => .ok s
  | none => .error ("KeyError: " ++ key)

def dictGetInt (v : Option Int) (key : String) : Except String Int :=
  match v with
  | some n => .ok n
  | none => .error ("KeyError: " ++ key)

/-- Embeds `_execute_tool`: dispatch on the tool name; `tool_input` item
accesses may raise (`Except.error`), everything else returns a string. -/
def execute_tool (tool_name : String) (tool_input : ToolInput)
    (fetchDiff : Except String String) : Except String String :=
  if tool_name = "fetch_release_notes" then do
    let d ← dictGetStr tool_input.dependency "dependency"
    let v ← dictGetStr tool_input.version "version"
    .ok (fetch_release_notes d v)
  else if tool_name = "check_cve_database" then do
    let d ← dictGetStr tool_input.dependency "dependency"
    let v ← dictGetStr tool_input.version "version"
    .ok (check_cve_database d v)
  else if tool_name = "analyze_diff" then do
    let _ ← dictGetInt tool_input.pr_number "pr_number"
    .ok (analyze_diff fetchDiff)
  else .ok ("Unknown tool: " ++ tool_name)

/-- A plain `PRContext` used to instantiate universally quantified
theorems at a concrete input: passing CI, mergeable, non-security,
bump category undetermined. -/
def sampleCtx : PRContext :=
  { number := 123
    title := "Update axios to 1.1.0"
    body := ""
    labels := ["dependencies"]
    author := "dependabot[bot]"
    is_draft := false
    mergeable := true
    mergeable_state := "clean"
    ci_status := "success"
    ci_conclusion := some "success"
    update_type := "unknown"
    old_version := ""
    new_version := ""
    dependency_name := "axios"
    is_security_update := false
    target_branch := "main"
    files_changed := ["package.json"] }

/-- A reasoning-service final text whose first balanced JSON object is a
valid verdict but which contains further brace characters later on. -/
def c3text : String :=
  "Result: \x7b\"decision\": \"AUTO_MERGE\", \"risk_level\": \"LOW\", \"reasoning\": \"ok\"\x7d Note: \x7bbraces\x7d"

/-- The first balanced curly-brace object inside `c3text`. -/
def c3obj : String :=
  "\x7b\"decision\": \"AUTO_MERGE\", \"risk_level\": \"LOW\", \"reasoning\": \"ok\"\x7d"

/-! ## Theorems -/

/-- Claim C1: for every `PRContext` and every `llm_response` string,
`_fallback_decision` returns exactly one verdict, following the fixed
priority order: CI failure or non-mergeable gives `(do_not_merge,
critical)` regardless of the other fields; else a major bump gives
`(require_approval, high)`; else a security update or a minor/patch bump
gives `(auto_merge, low)`; else `(require_approval, medium)`. -/
theorem fallback_table_C1 (context : PRContext) (llm_response : String) :
    ((context.ci_status = "failure" ∨ context.mergeable = false) →
      fallback_decision context llm_response =
        (MergeDecision.do_not_merge, RiskLevel.critical, fallbackReasoning llm_response))
  ∧ (context.ci_status ≠ "failure" → context.mergeable = true →
      context.update_type = "major" →
      fallback_decision context llm_response =
        (MergeDecision.require_approval, RiskLevel.high, fallbackReasoning llm_response))
  ∧ (context.ci_status ≠ "failure" → context.mergeable = true →
      context.update_type ≠ "major" →
      (context.is_security_update = true ∨ context.update_type = "minor" ∨
        context.update_type = "patch") →
      fallback_decision context llm_response =
        (MergeDecision.auto_merge, RiskLevel.low, fallbackReasoning llm_response))
  ∧ (context.ci_status ≠ "failure" → context.mergeable = true →
      context.update_type ≠ "major" → context.is_security_update = false →
      context.update_type ≠ "minor" → context.update_type ≠ "patch" →
      fallback_decision context llm_response =
        (MergeDecision.require_approval, RiskLevel.medium, fallbackReasoning llm_response)) := by
  refine ⟨?_, ?_, ?_, ?_⟩
  · intro h
    simp only [fallback_decision, if_pos h]
  · intro h1 h2 h3
    have hc : ¬(context.ci_status = "failure" ∨ context.mergeable = false) := by
      simp [h1, h2]
    simp only [fallback_decision, if_neg hc, if_pos h3]
  · intro h1 h2 h3 h4
    have hc : ¬(context.ci_status = "failure" ∨ context.mergeable = false) := by
      simp [h1, h2]
    simp only [fallback_decision, if_neg hc, if_neg h3, if_pos h4]
  · intro h1 h2 h3 h4 h5 h6
    have hc : ¬(context.ci_status = "failure" ∨ context.mergeable = false) := by
      simp [h1, h2]
    have hc2 : ¬(context.is_security_update = true ∨ context.update_type = "minor" ∨
        context.update_type = "patch") := by
      simp [h4, h5, h6]
    simp only [fallback_decision, if_neg hc, if_neg h3, if_neg hc2]

/-- Witness for C1: a failing-CI context falls into the first row. -/
theorem fallback_table_C1_witness :
    fallback_decision { sampleCtx with ci_status := "failure" } "resp" =
      (MergeDecision.do_not_merge, RiskLevel.critical, fallbackReasoning "resp") :=
  (fallback_table_C1 _ "resp").1 (Or.inl rfl)

/-- Counterexample to claim C5: a security-flagged update whose bump
category is `"unknown"` (passing CI, mergeable) is auto-merged by the
fallback table, so the table does auto-merge an update whose category
could not be determined. -/
theorem fallback_unknown_C5_counterexample :
    ({ sampleCtx with is_security_update := true } : PRContext).update_type = "unknown"
  ∧ (fallback_decision { sampleCtx with is_security_update := true } "r").1 =
      MergeDecision.auto_merge :=
  ⟨rfl, rfl⟩

/-- Claim C5 as amended: for every `PRContext` whose `update_type` is
`"unknown"` and whose security flag is clear, the fallback table never
returns `auto_merge`; a security-flagged update is auto-merged even when
its category is unknown. -/
theorem fallback_unknown_C5 (context : PRContext) (llm_response : String)
    (h1 : context.update_type = "unknown") (h2 : context.is_security_update = false) :
    (fallback_decision context llm_response).1 ≠ MergeDecision.auto_merge := by
  unfold fallback_decision
  split_ifs with ha hb hc <;> simp_all

/-- Witness for the amended C5: a non-security unknown-category context is
not auto-merged. -/
theorem fallback_unknown_C5_witness :
    (fallback_decision sampleCtx "r").1 ≠ MergeDecision.auto_merge :=
  fallback_unknown_C5 sampleCtx "r" rfl rfl

/-- Claim C9: for every tool name and schema-conformant argument set, and
even when the underlying diff fetch fails, `_execute_tool` returns a
string observation and never lets an exception escape: a failing diff
fetch becomes descriptive text, and an unrecognized tool name yields a
descriptive string. -/
theorem tool_invoker_C9 (tool_name : String) (tool_input : ToolInput) (err : String) :
    ((tool_name = "fetch_release_notes" ∨ tool_name = "check_cve_database") →
      tool_input.dependency ≠ none → tool_input.version ≠ none →
      ∃ s, execute_tool tool_name tool_input (.error err) = .ok s)
  ∧ (tool_name = "analyze_diff" → tool_input.pr_number ≠ none →
      execute_tool tool_name tool_input (.error err) =
        .ok ("Could not fetch diff: " ++ err))
  ∧ (tool_name ≠ "fetch_release_notes" → tool_name ≠ "check_cve_database" →
      tool_name ≠ "analyze_diff" →
      execute_tool tool_name tool_input (.error err) =
        .ok ("Unknown tool: " ++ tool_name)) := by
  obtain ⟨dep, ver, prn⟩ := tool_input
  refine ⟨?_, ?_, ?_⟩
  · rintro (rfl | rfl) hd hv <;>
    · obtain ⟨d, rfl⟩ := Option.ne_none_iff_exists'.mp hd
      obtain ⟨v, rfl⟩ := Option.ne_none_iff_exists'.mp hv
      exact ⟨_, rfl⟩
  · rintro rfl hp
    obtain ⟨n, rfl⟩ := Option.ne_none_iff_exists'.mp hp
    rfl
  · intro h1 h2 h3
    simp [execute_tool, h1, h2, h3]

/-- Witness for C9: each branch at a concrete input, with the diff fetch
failing. -/
theorem tool_invoker_C9_witness :
    (∃ s, execute_tool "fetch_release_notes" ⟨some "axios", some "1.6.1", none⟩
        (.error "net down") = .ok s)
  ∧ execute_tool "analyze_diff" ⟨none, none, some 123⟩ (.error "net down") =
      .ok ("Could not fetch diff: " ++ "net down")
  ∧ execute_tool "mystery" ⟨none, none, none⟩ (.error "net down") =
      .ok ("Unknown tool: " ++ "mystery") :=
  ⟨(tool_invoker_C9 "fetch_release_notes" ⟨some "axios", some "1.6.1", none⟩ "net down").1
      (Or.inl rfl) (by simp) (by simp),
   (tool_invoker_C9 "analyze_diff" ⟨none, none, some 123⟩ "net down").2.1 rfl (by simp),
   (tool_invoker_C9 "mystery" ⟨none, none, none⟩ "net down").2.2
      (by decide) (by decide) (by decide)⟩

/-- Helper: the loop issues at most `i + fuel` requests when entered at
round `i` with positive fuel. -/
theorem agentLoop_fst_le (respond : Nat → LLMResponse) :
    ∀ fuel i, (agentLoop respond i (fuel + 1)).1 ≤ i + (fuel + 1) := by
  intro fuel
  induction fuel with
  | zero => intro i; simp [agentLoop]
  | succ n ih =>
    intro i
    rw [show (n + 1 + 1) = (n + 1) + 1 from rfl, agentLoop]
    by_cases h : (respond i).stop_reason = "tool_use" ∧ n + 1 ≠ 0
    · simp only [if_pos h]
      calc (agentLoop respond (i + 1) (n + 1)).1 ≤ (i + 1) + (n + 1) := ih (i + 1)
        _ ≤ i + (n + 1 + 1) := by omega
    · simp only [if_neg h]
      omega

/-- Claim C2: for every sequence of reasoning-service responses,
`decide_with_llm` issues at most 5 requests; when every response requests
a tool, it issues exactly 5, exits the loop with the 5th response in hand,
and proceeds to verdict extraction on that response's text. -/
theorem reasoning_loop_bound_C2 (respond : Nat → LLMResponse) :
    llmCallCount respond ≤ 5
  ∧ ((∀ i, (respond i).stop_reason = "tool_use") →
      llmCallCount respond = 5
    ∧ (agentLoop respond 0 5).2 = respond 4
    ∧ ∀ context, decide_with_llm context respond =
        decideFromText context (finalText (respond 4))) := by
  constructor
  · have := agentLoop_fst_le respond 4 0
    simpa [llmCallCount] using this
  · intro h
    have hrun : agentLoop respond 0 5 = (5, respond 4) := by
      simp [agentLoop, h 0, h 1, h 2, h 3]
    exact ⟨by simp [llmCallCount, hrun], by simp [hrun],
      fun context => by simp [decide_with_llm, hrun]⟩

/-- Witness for C2: a stub that always requests a tool is called exactly
5 times, and extraction runs on its 5th response. -/
theorem reasoning_loop_bound_C2_witness :
    llmCallCount (fun _ => ⟨"tool_use", []⟩) = 5
  ∧ decide_with_llm sampleCtx (fun _ => ⟨"tool_use", []⟩) =
      decideFromText sampleCtx (finalText ⟨"tool_use", []⟩) := by
  have h := (reasoning_loop_bound_C2 (fun _ => ⟨"tool_use", []⟩)).2 (fun _ => rfl)
  exact ⟨h.1, h.2.2 sampleCtx⟩

/-- Claim C10: a Renovate-form title (`Update <name> to <version>`)
matched by the Renovate search but not by the Dependabot search and
containing no `from A to B` version pair yields the dependency name only:
versions stay empty and the bump category stays `"unknown"`. -/
theorem renovate_title_C10 :
    (∀ title body g,
      searchLazyGroup "bump ".toList " from".toList title.toList = none →
      searchLazyGroup "update ".toList " to".toList title.toList = some g →
      searchFromTo title.toList = none →
      parse_dependency_info title body =
        ⟨"unknown", "", "", String.mk (stripStr g)⟩)
  ∧ parse_dependency_info "Update axios to 1.1.0" "" = ⟨"unknown", "", "", "axios"⟩ := by
  constructor
  · intro title body g h1 h2 h3
    have h1' : searchLazyGroup ['b', 'u', 'm', 'p', ' '] [' ', 'f', 'r', 'o', 'm']
        title.data = none := h1
    have h2' : searchLazyGroup ['u', 'p', 'd', 'a', 't', 'e', ' '] [' ', 't', 'o']
        title.data = some g := h2
    have h3' : searchFromTo title.data = none := h3
    simp [parse_dependency_info, h1', h2', h3']
  · rfl

/-- Witness for C10: the general statement applied to
`"Update axios to 1.1.0"`. -/
theorem renovate_title_C10_witness :
    parse_dependency_info "Update axios to 1.1.0" "body text" =
      ⟨"unknown", "", "", String.mk (stripStr "axios".toList)⟩ :=
  renovate_title_C10.1 "Update axios to 1.1.0" "body text" "axios".toList rfl rfl rfl

/-- Helper: Python `split` never returns an empty list. -/
theorem splitOnDot_length_pos (l : List Char) : 1 ≤ (splitOnDot l).length := by
  induction l with
  | nil => simp [splitOnDot]
  | cons c rest ih =>
    rw [splitOnDot]
    split_ifs
    · simp
    · cases h : splitOnDot rest with
      | nil => simp
      | cons p ps => simp

/-- Claim C7: whenever the version search finds a pair `(A, B)`, the bump
category is computed from `A` and `B` by comparing only the first two
dot-separated components as strings — first components unequal gives
`major`, else second components (when both exist) unequal gives `minor`,
else `patch` — and the quoted examples classify as stated, including
`1.9.9 → 1.10.0` as `minor`. -/
theorem classifier_C7 :
    (∀ title body A B, searchFromTo title.toList = some (A, B) →
      (parse_dependency_info title body).update_type = classifyUpdate A B ∧
      (parse_dependency_info title body).old_version = String.mk A ∧
      (parse_dependency_info title body).new_version = String.mk B)
  ∧ (∀ A B, classifyUpdate A B =
      (if (splitOnDot A).headD [] ≠ (splitOnDot B).headD [] then "major"
       else if 2 ≤ (splitOnDot A).length ∧ 2 ≤ (splitOnDot B).length ∧
           (splitOnDot A).getD 1 [] ≠ (splitOnDot B).getD 1 [] then "minor"
       else "patch"))
  ∧ parse_dependency_info "Bump axios from 1.6.0 to 1.6.1" "" =
      ⟨"patch", "1.6.0", "1.6.1", "axios"⟩
  ∧ parse_dependency_info "Bump react from 18.2.0 to 18.3.0" "" =
      ⟨"minor", "18.2.0", "18.3.0", "react"⟩
  ∧ parse_dependency_info "Bump next from 13.5.0 to 14.0.0" "" =
      ⟨"major", "13.5.0", "14.0.0", "next"⟩
  ∧ classifyUpdate "1.9.9".toList "1.10.0".toList = "minor" := by
  refine ⟨?_, ?_, rfl, rfl, rfl, rfl⟩
  · intro title body A B h
    have h' : searchFromTo title.data = some (A, B) := h
    simp [parse_dependency_info, h']
  · intro A B
    simp only [classifyUpdate]
    rw [if_pos ⟨splitOnDot_length_pos A, splitOnDot_length_pos B⟩]

/-- Witness for C7: the general statement applied to a concrete
Dependabot title. -/
theorem classifier_C7_witness :
    (parse_dependency_info "Bump lodash from 4.17.20 to 4.17.21" "").update_type =
      classifyUpdate "4.17.20".toList "4.17.21".toList :=
  (classifier_C7.1 "Bump lodash from 4.17.20 to 4.17.21" ""
    "4.17.20".toList "4.17.21".toList rfl).1

/-- Helper: the substring scan agrees with `List.IsInfix`. -/
theorem listContains_iff (needle l : List Char) :
    listContains needle l = true ↔ needle <:+: l := by
  induction l with
  | nil =>
    rw [listContains]
    simp [List.isEmpty_iff, List.infix_nil]
  | cons c rest ih =>
    rw [listContains]
    simp only [Bool.or_eq_true, ih, List.infix_cons_iff, List.isPrefixOf_iff_prefix]

/-- Claim C8: the security detector returns true exactly when some label
name case-insensitively contains `"security"`, or the body
case-insensitively contains `"security"`, `"cve"` or `"vulnerability"`;
the quoted examples behave as stated. -/
theorem security_detector_C8 :
    (∀ labels body, is_security_update labels body = true ↔
      ((∃ label ∈ labels, "security".toList <:+: (lowerStr label).toList) ∨
        "security".toList <:+: (lowerStr body).toList ∨
        "cve".toList <:+: (lowerStr body).toList ∨
        "vulnerability".toList <:+: (lowerStr body).toList))
  ∧ is_security_update ["security"] "Update dependency" = true
  ∧ is_security_update ["dependencies"] "This fixes CVE-2024-1234" = true
  ∧ is_security_update [] "Fixes a critical vulnerability in parsing" = true
  ∧ is_security_update ["dependencies"] "Regular dependency update" = false := by
  refine ⟨?_, rfl, rfl, rfl, rfl⟩
  intro labels body
  simp only [is_security_update, containsSub, Bool.or_eq_true, List.any_eq_true,
    listContains_iff, List.mem_map]
  constructor
  · rintro (((h | h) | h) | h)
    · obtain ⟨x, ⟨a, ha, rfl⟩, hl⟩ := h
      exact Or.inl ⟨a, ha, hl⟩
    · exact Or.inr (Or.inl h)
    · exact Or.inr (Or.inr (Or.inl h))
    · exact Or.inr (Or.inr (Or.inr h))
  · rintro (⟨a, ha, hl⟩ | h | h | h)
    · exact Or.inl (Or.inl (Or.inl ⟨lowerStr a, ⟨a, ha, rfl⟩, hl⟩))
    · exact Or.inl (Or.inl (Or.inr h))
    · exact Or.inl (Or.inr h)
    · exact Or.inr h

/-- Claim C4: whenever verdict extraction fails — no JSON-shaped span in
the text, or the `try` block raises (malformed JSON, missing key, bad enum
token) — `decide_with_llm`'s extraction stage returns the fallback verdict
instead of raising; and in every case the stage produces exactly one
triple: the fallback one or a successfully parsed one. -/
theorem parse_failure_fallback_C4 (context : PRContext) (final_text : String) :
    (jsonSpan final_text.toList = none →
      decideFromText context final_text = wrapFallback context final_text)
  ∧ (∀ span e, jsonSpan final_text.toList = some span →
      parseVerdictFromSpan span = .error e →
      decideFromText context final_text = wrapFallback context final_text)
  ∧ (decideFromText context final_text = wrapFallback context final_text ∨
      ∃ span t, jsonSpan final_text.toList = some span ∧
        parseVerdictFromSpan span = .ok t ∧ decideFromText context final_text = t) := by
  refine ⟨?_, ?_, ?_⟩
  · intro h
    have h' : jsonSpan final_text.data = none := h
    simp [decideFromText, h']
  · intro span e h1 h2
    have h1' : jsonSpan final_text.data = some span := h1
    simp [decideFromText, h1', h2]
  · rcases hs : jsonSpan final_text.toList with _ | span
    · left
      have hs' : jsonSpan final_text.data = none := hs
      simp [decideFromText, hs']
    · rcases hp : parseVerdictFromSpan span with e | t
      · left
        have hs' : jsonSpan final_text.data = some span := hs
        simp [decideFromText, hs', hp]
      · right
        have hs' : jsonSpan final_text.data = some span := hs
        exact ⟨span, t, rfl, hp, by simp [decideFromText, hs', hp]⟩

/-- Witness for C4: a brace-free text falls back, and a text whose JSON
object carries an undefined decision token falls back. -/
theorem parse_failure_fallback_C4_witness :
    decideFromText sampleCtx "The model returned no JSON at all." =
      wrapFallback sampleCtx "The model returned no JSON at all."
  ∧ decideFromText sampleCtx "\x7b\"decision\": \"MERGE\"\x7d" =
      wrapFallback sampleCtx "\x7b\"decision\": \"MERGE\"\x7d" :=
  ⟨(parse_failure_fallback_C4 sampleCtx "The model returned no JSON at all.").1 rfl,
   (parse_failure_fallback_C4 sampleCtx "\x7b\"decision\": \"MERGE\"\x7d").2.1
     "\x7b\"decision\": \"MERGE\"\x7d".toList "KeyError: decision token" rfl rfl⟩

/-- Counterexample to claim C6: a run where every check completed but a
conclusion is absent (`null`) does report success — the falsy conclusions
are filtered out before the all-success test, so even a single completed
check with a `null` conclusion yields `("success", "success")`. -/
theorem ci_aggregator_C6_counterexample :
    get_ci_status (.ok [⟨"completed", none⟩]) = ("success", some "success")
  ∧ get_ci_status (.ok [⟨"completed", none⟩, ⟨"completed", some "success"⟩]) =
      ("success", some "success") :=
  ⟨rfl, rfl⟩

/-- Helper: the incomplete-status scan of `_get_ci_status` in `Prop`
form. -/
theorem statusAny_eq_true (runs : List CheckRun) :
    (((runs.map (·.status)).any fun s => s ≠ "completed") = true) ↔
      ∃ r ∈ runs, r.status ≠ "completed" := by
  simp only [List.any_eq_true, List.mem_map, decide_eq_true_eq]
  constructor
  · rintro ⟨s, ⟨x, hx, rfl⟩, h⟩
    exact ⟨x, hx, h⟩
  · rintro ⟨x, hx, h⟩
    exact ⟨x.status, ⟨x, hx, rfl⟩, h⟩

/-- Claim C6 as amended: the aggregator returns `(pending, null)` on an
empty list or any incomplete check, `(success, success)` when every check
completed and every present (non-null, non-empty) conclusion is success —
including when some conclusions are absent — `(failure, failure)` when all
completed and some present conclusion is failure/cancelled/timed_out,
`(pending, null)` otherwise, and `(unknown, null)` when the fetch itself
fails. -/
theorem ci_aggregator_C6 :
    (∀ e, get_ci_status (.error e) = ("unknown", none))
  ∧ get_ci_status (.ok []) = ("pending", none)
  ∧ (∀ runs : List CheckRun, (∃ r ∈ runs, r.status ≠ "completed") →
      get_ci_status (.ok runs) = ("pending", none))
  ∧ (∀ runs : List CheckRun, runs ≠ [] → (∀ r ∈ runs, r.status = "completed") →
      (∀ c ∈ ciConclusions runs, c = "success") →
      get_ci_status (.ok runs) = ("success", some "success"))
  ∧ (∀ runs : List CheckRun, (∀ r ∈ runs, r.status = "completed") →
      (∃ c ∈ ciConclusions runs, c = "failure" ∨ c = "cancelled" ∨ c = "timed_out") →
      get_ci_status (.ok runs) = ("failure", some "failure"))
  ∧ (∀ runs : List CheckRun, runs ≠ [] → (∀ r ∈ runs, r.status = "completed") →
      (∃ c ∈ ciConclusions runs, c ≠ "success") →
      (∀ c ∈ ciConclusions runs, ¬(c = "failure" ∨ c = "cancelled" ∨ c = "timed_out")) →
      get_ci_status (.ok runs) = ("pending", none)) := by
  refine ⟨fun e => rfl, rfl, ?_, ?_, ?_, ?_⟩
  · intro runs h
    obtain ⟨r, hr, hne⟩ := h
    have h0 : ¬(runs.isEmpty = true) := by
      simp only [List.isEmpty_iff]
      exact List.ne_nil_of_mem hr
    have hany : ((runs.map (·.status)).any fun s => s ≠ "completed") = true :=
      (statusAny_eq_true runs).mpr ⟨r, hr, hne⟩
    simp only [get_ci_status, if_neg h0, if_pos hany]
  · intro runs hne hall hallc
    have h0 : ¬(runs.isEmpty = true) := by
      simp only [List.isEmpty_iff]
      exact hne
    have hany : ¬(((runs.map (·.status)).any fun s => s ≠ "completed") = true) := by
      rw [statusAny_eq_true]
      push_neg
      exact hall
    have hsucc : ((ciConclusions runs).all fun c => c = "success") = true := by
      rw [List.all_eq_true]
      intro c hc
      simp [hallc c hc]
    simp only [get_ci_status, if_neg h0, if_neg hany, if_pos hsucc]
  · intro runs hall h
    obtain ⟨c₀, hc₀, hdisj⟩ := h
    have hrmem : ∃ r ∈ runs, True := by
      rcases List.mem_filterMap.mp (by simpa [ciConclusions] using hc₀) with ⟨r, hr, _⟩
      exact ⟨r, hr, trivial⟩
    obtain ⟨r, hr, -⟩ := hrmem
    have h0 : ¬(runs.isEmpty = true) := by
      simp only [List.isEmpty_iff]
      exact List.ne_nil_of_mem hr
    have hany : ¬(((runs.map (·.status)).any fun s => s ≠ "completed") = true) := by
      rw [statusAny_eq_true]
      push_neg
      exact hall
    have hnotsucc : ¬(((ciConclusions runs).all fun c => c = "success") = true) := by
      rw [List.all_eq_true]
      push_neg
      refine ⟨c₀, hc₀, ?_⟩
      rcases hdisj with rfl | rfl | rfl <;> simp
    have hfail : ((ciConclusions runs).any fun c =>
        c = "failure" ∨ c = "cancelled" ∨ c = "timed_out") = true := by
      rw [List.any_eq_true]
      exact ⟨c₀, hc₀, by simp [hdisj]⟩
    simp only [get_ci_status, if_neg h0, if_neg hany, if_neg hnotsucc, if_pos hfail]
  · intro runs hne hall hnots hnofail
    have h0 : ¬(runs.isEmpty = true) := by
      simp only [List.isEmpty_iff]
      exact hne
    have hany : ¬(((runs.map (·.status)).any fun s => s ≠ "completed") = true) := by
      rw [statusAny_eq_true]
      push_neg
      exact hall
    obtain ⟨c₀, hc₀, hc₀ne⟩ := hnots
    have hnotsucc : ¬(((ciConclusions runs).all fun c => c = "success") = true) := by
      rw [List.all_eq_true]
      push_neg
      exact ⟨c₀, hc₀, by simp [hc₀ne]⟩
    have hnofail' : ¬(((ciConclusions runs).any fun c =>
        c = "failure" ∨ c = "cancelled" ∨ c = "timed_out") = true) := by
      rw [List.any_eq_true]
      push_neg
      intro c hc
      simp [hnofail c hc]
    simp only [get_ci_status, if_neg h0, if_neg hany, if_neg hnotsucc, if_neg hnofail']

/-- Witness for the amended C6: concrete runs for the incomplete, success,
failure and neutral-conclusion rows. -/
theorem ci_aggregator_C6_witness :
    get_ci_status (.ok [⟨"in_progress", none⟩, ⟨"completed", some "success"⟩]) =
      ("pending", none)
  ∧ get_ci_status (.ok [⟨"completed", some "success"⟩, ⟨"completed", some "success"⟩]) =
      ("success", some "success")
  ∧ get_ci_status (.ok [⟨"completed", some "success"⟩, ⟨"completed", some "failure"⟩]) =
      ("failure", some "failure")
  ∧ get_ci_status (.ok [⟨"completed", some "skipped"⟩]) = ("pending", none) :=
  ⟨ci_aggregator_C6.2.2.1 _ ⟨⟨"in_progress", none⟩, by simp, by simp⟩,
   ci_aggregator_C6.2.2.2.1 _ (by simp) (by decide) (by decide),
   ci_aggregator_C6.2.2.2.2.1 _ (by decide)
     ⟨"failure", by simp [ciConclusions], Or.inl rfl⟩,
   ci_aggregator_C6.2.2.2.2.2 _ (by simp) (by decide)
     ⟨"skipped", by simp [ciConclusions], by simp⟩ (by decide)⟩

/-- Helper: when the closing-brace scan returns nothing, the input has no
closing brace. -/
theorem upToLastRBrace_none (l : List Char) (h : upToLastRBrace l = none) :
    ∀ c ∈ l, c ≠ '\x7d' := by
  induction l with
  | nil => intro c hc; simp at hc
  | cons c rest ih =>
    rw [upToLastRBrace] at h
    rcases h' : upToLastRBrace rest with _ | t
    · simp only [h'] at h
      intro x hx
      rcases List.mem_cons.mp hx with rfl | hx
      · intro hxe
        rw [if_pos hxe] at h
        exact Option.noConfusion h
      · exact ih h' x hx
    · simp only [h'] at h
      exact Option.noConfusion h

/-- Helper: the closing-brace scan returns the prefix ending at the last
closing brace of the input. -/
theorem upToLastRBrace_some (l : List Char) :
    ∀ t, upToLastRBrace l = some t →
      ∃ t₀ post, t = t₀ ++ ['\x7d'] ∧ l = t₀ ++ '\x7d' :: post ∧ ∀ c ∈ post, c ≠ '\x7d' := by
  induction l with
  | nil => intro t h; simp [upToLastRBrace] at h
  | cons c rest ih =>
    intro t h
    rw [upToLastRBrace] at h
    rcases h' : upToLastRBrace rest with _ | t'
    · simp only [h'] at h
      split_ifs at h with hc
      · injection h with h
        subst h
        subst hc
        exact ⟨[], rest, rfl, rfl, upToLastRBrace_none rest h'⟩
    · simp only [h'] at h
      injection h with h
      subst h
      obtain ⟨t₀, post, ht, hl, hpost⟩ := ih t' h'
      exact ⟨c :: t₀, post, by simp [ht], by simp [hl], hpost⟩

/-- Helper: a text with no closing brace yields no regex match. -/
theorem jsonSpan_none_of_no_rbrace (l : List Char) (h : ∀ c ∈ l, c ≠ '\x7d') :
    jsonSpan l = none := by
  induction l with
  | nil => rfl
  | cons c rest ih =>
    have hrest : ∀ x ∈ rest, x ≠ '\x7d' := fun x hx => h x (List.mem_cons_of_mem _ hx)
    rw [jsonSpan]
    rcases h' : upToLastRBrace rest with _ | t
    · split_ifs with hc
      · simp only [h']
        exact ih hrest
      · exact ih hrest
    · obtain ⟨t₀, post, _, hl, _⟩ := upToLastRBrace_some rest t h'
      exact absurd rfl (hrest '\x7d' (by simp [hl]))

/-- Claim C3 as amended: verdict extraction matches the span running from
the first `\x7b` of the text to the last `\x7d` of the whole text (the
greedy `\x7b[\s\S]*\x7d` match), not the first balanced object, and parses
that whole span; the three decision tokens and four risk tokens map to
their enum members. -/
theorem verdict_extraction_C3 :
    (∀ l s, jsonSpan l = some s →
      ∃ pre mid post, l = pre ++ s ++ post ∧ s = '\x7b' :: (mid ++ ['\x7d']) ∧
        (∀ c ∈ pre, c ≠ '\x7b') ∧ (∀ c ∈ post, c ≠ '\x7d'))
  ∧ mergeDecisionOfToken (.str "AUTO_MERGE") = .ok MergeDecision.auto_merge
  ∧ mergeDecisionOfToken (.str "REQUIRE_APPROVAL") = .ok MergeDecision.require_approval
  ∧ mergeDecisionOfToken (.str "DO_NOT_MERGE") = .ok MergeDecision.do_not_merge
  ∧ riskLevelOfToken (.str "LOW") = .ok RiskLevel.low
  ∧ riskLevelOfToken (.str "MEDIUM") = .ok RiskLevel.medium
  ∧ riskLevelOfToken (.str "HIGH") = .ok RiskLevel.high
  ∧ riskLevelOfToken (.str "CRITICAL") = .ok RiskLevel.critical := by
  refine ⟨?_, rfl, rfl, rfl, rfl, rfl, rfl, rfl⟩
  intro l
  induction l with
  | nil => intro s h; simp [jsonSpan] at h
  | cons c rest ih =>
    intro s h
    rw [jsonSpan] at h
    split_ifs at h with hc
    · rcases h' : upToLastRBrace rest with _ | t
      · simp only [h'] at h
        rw [jsonSpan_none_of_no_rbrace rest (upToLastRBrace_none rest h')] at h
        exact Option.noConfusion h
      · simp only [h'] at h
        injection h with h
        subst h
        obtain ⟨t₀, post, ht, hl, hpost⟩ := upToLastRBrace_some rest t h'
        subst hc
        exact ⟨[], t₀, post, by simp [hl, ht], by simp [ht], by simp, hpost⟩
    · obtain ⟨pre, mid, post, hl, hs, hpre, hpost⟩ := ih s h
      refine ⟨c :: pre, mid, post, by simp [hl], hs, ?_, hpost⟩
      intro x hx
      rcases List.mem_cons.mp hx with rfl | hx
      · exact hc
      · exact hpre x hx

/-- Witness for the amended C3: the span decomposition at a concrete
text. -/
theorem verdict_extraction_C3_witness :
    ∃ pre mid post,
      "a\x7bb\x7dc".toList = pre ++ "\x7bb\x7d".toList ++ post ∧
      "\x7bb\x7d".toList = '\x7b' :: (mid ++ ['\x7d']) ∧
      (∀ c ∈ pre, c ≠ '\x7b') ∧ (∀ c ∈ post, c ≠ '\x7d') :=
  verdict_extraction_C3.1 "a\x7bb\x7dc".toList "\x7bb\x7d".toList rfl

/-- Counterexample to claim C3: `c3text` holds a valid verdict object
followed by later brace characters.  The first balanced object parses to
`(auto_merge, low)`, but the code's greedy span runs to the last brace of
the whole text, fails to parse, and extraction falls back — the first
balanced object is not the one parsed. -/
theorem verdict_extraction_C3_counterexample :
    specFirstBalancedObject c3text.toList = some c3obj.toList
  ∧ parseVerdictFromSpan c3obj.toList =
      .ok (MergeDecision.auto_merge, RiskLevel.low, JsonValue.str "ok")
  ∧ jsonSpan c3text.toList ≠ specFirstBalancedObject c3text.toList
  ∧ decideFromText sampleCtx c3text = wrapFallback sampleCtx c3text
  ∧ (decideFromText sampleCtx c3text).1 = MergeDecision.require_approval :=
  ⟨rfl, rfl, by decide, rfl, rfl⟩

end DependencyBot
